import Mathlib

/-!
Shallow embedding of the retrieval-augmented fault-diagnosis pipeline of the
`maintenance-Ai-Agent` repository, together with theorems settling the spec's
testable properties against the code.

Strings are modelled as Lean `String`; the character-level JavaScript string
operations used by the code (`split`, `join`, `includes`, `toLowerCase`,
`trim`, `substring`, regex character-class matching) are embedded as
executable functions over `List Char` with ASCII lower-casing, matching the
ASCII inputs the code manipulates.
-/

/-! ## JavaScript string primitives -/

/-- ASCII lower-casing of a character list, modelling `String.toLowerCase`. -/
def jsToLower (s : List Char) : List Char :=
  s.map Char.toLower

/-- Does `hay` start with `needle`?  (Helper for `jsIncludesL`.) -/
def leadsWith : List Char → List Char → Bool
  | [], _ => true
  | _ :: _, [] => false
  | a :: as, b :: bs => a = b && leadsWith as bs

/-- Auxiliary scan for substring containment. -/
def containsAux (needle : List Char) : List Char → Bool
  | [] => leadsWith needle []
  | c :: rest => leadsWith needle (c :: rest) || containsAux needle rest

/-- `jsIncludesL hay needle` models JavaScript `hay.includes(needle)`:
substring containment, true for the empty needle. -/
def jsIncludesL (hay needle : List Char) : Bool :=
  containsAux needle hay

/-- `jsIncludes hay needle` is `jsIncludesL` on `String`s. -/
def jsIncludes (hay needle : String) : Bool :=
  jsIncludesL hay.data needle.data

/-- Split a character list at every character satisfying `p`, modelling
JavaScript `String.split` with a single-character-class separator: the result
is never empty, and adjacent separators produce empty fragments
(`"".split(" ") = [""]`, `"a  b".split(" ") = ["a","","b"]`). -/
def jsSplitPAux (p : Char → Bool) : List Char → List Char → List (List Char)
  | [], acc => [acc.reverse]
  | c :: rest, acc =>
    if p c then acc.reverse :: jsSplitPAux p rest []
    else jsSplitPAux p rest (c :: acc)

/-- `jsSplitP p s` splits `s` at every character satisfying `p`. -/
def jsSplitP (p : Char → Bool) (s : List Char) : List (List Char) :=
  jsSplitPAux p s []

theorem jsSplitPAux_ne_nil (p : Char → Bool) :
    ∀ (s acc : List Char), jsSplitPAux p s acc ≠ [] := by
  intro s
  induction s with
  | nil => intro acc; simp [jsSplitPAux]
  | cons c rest ih =>
    intro acc
    by_cases h : p c
    · simp only [jsSplitPAux, h, if_true]
      simp
    · simp only [jsSplitPAux, h, if_false]
      exact ih _

theorem jsSplitP_ne_nil (p : Char → Bool) (s : List Char) :
    jsSplitP p s ≠ [] :=
  jsSplitPAux_ne_nil p s []

/-! ## Relevance Scorer

Source (`scrapeUrl`, both versions):
```js
const queryWords = searchQuery.toLowerCase().split(" ");
const contentLower = content.toLowerCase();
const matchCount = queryWords.filter((word) => contentLower.includes(word)).length;
const relevanceScore = Math.min(1, matchCount / queryWords.length);   // basic
const relevanceScore = matchCount / queryWords.length;                // enhanced
```
-/

/-- `queryTokens q` models `searchQuery.toLowerCase().split(" ")`. -/
def queryTokens (q : String) : List (List Char) :=
  jsSplitP (fun c => c = ' ') (jsToLower q.data)

/-- `matchCount content q` models
`queryWords.filter((word) => contentLower.includes(word)).length`. -/
def matchCount (content q : String) : Nat :=
  ((queryTokens q).filter (fun w => jsIncludesL (jsToLower content.data) w)).length

/-- Relevance score of the basic `scrapeUrl`:
`Math.min(1, matchCount / queryWords.length)`, computed in `ℚ`. -/
def relevanceScore (content q : String) : ℚ :=
  min 1 ((matchCount content q : ℚ) / ((queryTokens q).length : ℚ))

/-- Relevance score of the enhanced `scrapeUrl`: no `Math.min` clamp. -/
def relevanceScoreEnhanced (content q : String) : ℚ :=
  (matchCount content q : ℚ) / ((queryTokens q).length : ℚ)

theorem queryTokens_ne_nil (q : String) : queryTokens q ≠ [] :=
  jsSplitP_ne_nil _ _

theorem matchCount_le (content q : String) :
    matchCount content q ≤ (queryTokens q).length :=
  List.length_filter_le _ _

theorem relevanceScoreEnhanced_le_one (content q : String) :
    relevanceScoreEnhanced content q ≤ 1 := by
  unfold relevanceScoreEnhanced
  have hlen : 0 < ((queryTokens q).length : ℚ) := by
    have := List.length_pos.mpr (queryTokens_ne_nil q)
    exact_mod_cast this
  rw [div_le_one hlen]
  exact_mod_cast matchCount_le content q

theorem relevanceScore_eq_enhanced (content q : String) :
    relevanceScore content q = relevanceScoreEnhanced content q := by
  unfold relevanceScore
  exact min_eq_right (relevanceScoreEnhanced_le_one content q)

theorem jsIncludesL_nil (hay : List Char) : jsIncludesL hay [] = true := by
  cases hay <;> simp [jsIncludesL, containsAux, leadsWith]

theorem score_empty_query (content : String) : relevanceScore content "" = 1 := by
  have h1 : queryTokens "" = [[]] := rfl
  unfold relevanceScore matchCount
  rw [h1]
  simp [jsIncludesL_nil]

/-- C7: for every content `C` and query `Q` with at least one token, the
relevance score computed during scraping lies in `[0,1]`, and it equals `1`
iff every query token is a substring of the lowercased content; the enhanced
version computes the same value (its missing `Math.min` clamp is redundant). -/
theorem relevance_score_bounds (content q : String)
    (h : 1 ≤ (queryTokens q).length) :
    0 ≤ relevanceScore content q ∧ relevanceScore content q ≤ 1 ∧
    (relevanceScore content q = 1 ↔
      ∀ w ∈ queryTokens q, jsIncludesL (jsToLower content.data) w = true) ∧
    relevanceScoreEnhanced content q = relevanceScore content q := by
  have hpos : 0 < ((queryTokens q).length : ℚ) := by exact_mod_cast h
  refine ⟨?_, min_le_left _ _, ?_, (relevanceScore_eq_enhanced content q).symm⟩
  · rw [relevanceScore_eq_enhanced]
    exact div_nonneg (by positivity) (le_of_lt hpos)
  · rw [relevanceScore_eq_enhanced]
    unfold relevanceScoreEnhanced
    rw [div_eq_one_iff_eq (ne_of_gt hpos), Nat.cast_inj]
    unfold matchCount
    exact List.filter_length_eq_length

/-- Witness for `relevance_score_bounds` at a concrete content and query. -/
theorem relevance_score_bounds_witness :
    1 ≤ (queryTokens "PUMP Filter").length ∧
    (0 ≤ relevanceScore "replace the pump filter" "PUMP Filter" ∧
     relevanceScore "replace the pump filter" "PUMP Filter" ≤ 1 ∧
     (relevanceScore "replace the pump filter" "PUMP Filter" = 1 ↔
       ∀ w ∈ queryTokens "PUMP Filter",
         jsIncludesL (jsToLower ("replace the pump filter").data) w = true) ∧
     relevanceScoreEnhanced "replace the pump filter" "PUMP Filter" =
       relevanceScore "replace the pump filter" "PUMP Filter") :=
  ⟨by decide, relevance_score_bounds "replace the pump filter" "PUMP Filter" (by decide)⟩

/-- C8 counterexample: the claim asserts the empty query scores `0`, but
JavaScript tokenization of the empty query yields the single empty token
(`"".split(" ") = [""]`), which every content contains, so the code scores
the empty query `1`, not `0`. -/
theorem empty_query_scores_one :
    relevanceScore "pump leaking" "" = 1 ∧ ¬ relevanceScore "pump leaking" "" = 0 := by
  constructor
  · exact score_empty_query "pump leaking"
  · rw [score_empty_query "pump leaking"]
    norm_num

/-- C8 amended: the code's tokenization never yields zero tokens — JavaScript
`split(" ")` always returns at least one (possibly empty) token — so the
score's denominator is never zero (no `NaN`, no division by zero); in
particular the empty query tokenizes to one empty token, which every content
contains as a substring, and therefore scores `1` rather than `0`. -/
theorem score_no_zero_tokens (q content : String) :
    (queryTokens q).length ≠ 0 ∧ relevanceScore content "" = 1 := by
  refine ⟨?_, score_empty_query content⟩
  simp only [ne_eq, List.length_eq_zero]
  exact queryTokens_ne_nil q

/-! ## partsRequired round-trip (Learning Writer / fault get)

Source: `saveFaultAnalysis` stores `partsRequired: analysis.partsRequired.join(", ")`;
`faultsRouter.get` reads `partsRequired: fault.partsRequired?.split(",") || []`.
-/

/-- `jsJoin sep xs` models JavaScript `xs.join(sep)`. -/
def jsJoin (sep : String) (xs : List String) : String :=
  (List.intercalate sep.data (xs.map String.data)).asString

/-- `jsSplitChar sep s` models JavaScript `s.split(sep)` for a one-character
separator. -/
def jsSplitChar (sep : Char) (s : String) : List String :=
  (jsSplitP (fun c => c = sep) s.data).map List.asString

/-- The at-rest form of `partsRequired` written by `saveFaultAnalysis`. -/
def savePartsRequired (parts : List String) : String :=
  jsJoin ", " parts

/-- The list form of `partsRequired` produced by the fault `get` operation. -/
def readPartsRequired (stored : String) : List String :=
  jsSplitChar ',' stored

/-- C3 (divergence evaluated): the writer joins with `", "` (comma and space)
but the reader splits on `","` alone, so `["P-100","P-200"]` — comma-free
part names — reads back as `["P-100"," P-200"]`: every element after the
first gains a leading space, and the round-trip is not the identity. -/
theorem parts_round_trip_not_lossless :
    readPartsRequired (savePartsRequired ["P-100", "P-200"]) = ["P-100", " P-200"] ∧
    ¬ readPartsRequired (savePartsRequired ["P-100", "P-200"]) = ["P-100", "P-200"] := by
  decide

/-! ## Maintenance-Info Extractor

Two diverging implementations of `extractMaintenanceInfo` coexist in the
source.  The basic one splits content on newlines, classifies each line by
keyword, and deduplicates via `new Set` — with no caps.  The enhanced one
splits on `[.!?\n]`, uses different keyword families, deduplicates, and caps
the categories at 10/15/5 via `.slice(0, n)`.
-/

/-- First-occurrence deduplication, modelling `[...new Set(xs)]`. -/
def jsSetDedupAux [DecidableEq α] (seen : List α) : List α → List α
  | [] => []
  | a :: l => if a ∈ seen then jsSetDedupAux seen l else a :: jsSetDedupAux (a :: seen) l

/-- `jsSetDedup l` keeps the first occurrence of each element of `l`. -/
def jsSetDedup [DecidableEq α] (l : List α) : List α :=
  jsSetDedupAux [] l

theorem jsSetDedupAux_nodup [DecidableEq α] (l : List α) : ∀ seen : List α,
    (jsSetDedupAux seen l).Nodup ∧ ∀ x ∈ jsSetDedupAux seen l, x ∉ seen := by
  induction l with
  | nil => intro seen; simp [jsSetDedupAux]
  | cons a l ih =>
    intro seen
    by_cases h : a ∈ seen
    · simpa only [jsSetDedupAux, if_pos h] using ih seen
    · simp only [jsSetDedupAux, if_neg h]
      obtain ⟨hnd, hmem⟩ := ih (a :: seen)
      refine ⟨List.nodup_cons.mpr ⟨fun hx => (hmem a hx) (List.mem_cons_self a seen), hnd⟩, ?_⟩
      intro x hx
      rcases List.mem_cons.mp hx with rfl | hx'
      · exact h
      · exact fun hxseen => (hmem x hx') (List.mem_cons_of_mem a hxseen)

theorem jsSetDedup_nodup [DecidableEq α] (l : List α) : (jsSetDedup l).Nodup :=
  (jsSetDedupAux_nodup l []).1

/-- JavaScript whitespace relevant to `String.trim` on the code's inputs. -/
def isJsWhitespace (c : Char) : Bool :=
  c == ' ' || c == '\t' || c == '\n' || c == '\r'

/-- `jsTrim` models JavaScript `String.trim`: strip whitespace at both ends. -/
def jsTrim (s : List Char) : List Char :=
  ((s.dropWhile isJsWhitespace).reverse.dropWhile isJsWhitespace).reverse

/-- Leftmost match of the regex `[cls]{k,}` against a character list: the
first maximal run of class characters whose length is at least `k`.  The
Boolean flag records whether the scan is inside a run already found too
short. -/
def firstRunAux (cls : Char → Bool) (k : Nat) : Bool → List Char → Option (List Char)
  | _, [] => none
  | skipping, c :: rest =>
    if cls c then
      if skipping then firstRunAux cls k true rest
      else
        let run := c :: rest.takeWhile cls
        if k ≤ run.length then some run else firstRunAux cls k true rest
    else firstRunAux cls k false rest

/-- `firstRun cls k s` models `s.match(regex)` for a single-class regex with a
`{k,}` (or `+`, for `k = 1`) quantifier, returning the matched text. -/
def firstRun (cls : Char → Bool) (k : Nat) (s : List Char) : Option (List Char) :=
  firstRunAux cls k false s

/-- ASCII upper-case letter, the `A-Z` regex range. -/
def isAsciiUpper (c : Char) : Bool := 'A' ≤ c && c ≤ 'Z'

/-- ASCII digit, the `0-9` regex range. -/
def isAsciiDigit (c : Char) : Bool := '0' ≤ c && c ≤ '9'

/-- Character class of the basic extractor's regex `[A-Z0-9\-\.]+`. -/
def basicPartClass (c : Char) : Bool :=
  isAsciiUpper c || isAsciiDigit c || c == '-' || c == '.'

/-- Character class of the enhanced extractor's regex `[A-Z0-9-]{4,}`. -/
def enhancedPartClass (c : Char) : Bool :=
  isAsciiUpper c || isAsciiDigit c || c == '-'

/-- Output of either extractor. -/
structure MaintenanceInfo where
  parts : List String
  procedures : List String
  warnings : List String
deriving DecidableEq

/-- Lines of the basic extractor: `content.split("\n")`. -/
def basicLines (content : String) : List (List Char) :=
  jsSplitP (fun c => c = '\n') content.data

/-- Parts category of the basic extractor (deduplicated, uncapped). -/
def basicParts (content : String) : List String :=
  jsSetDedup ((basicLines content).filterMap (fun line =>
    let lowerLine := jsToLower line
    if jsIncludesL lowerLine "part".data || jsIncludesL lowerLine "component".data ||
        jsIncludesL lowerLine "module".data then
      (firstRun basicPartClass 1 line).map List.asString
    else none))

/-- Procedures category of the basic extractor (deduplicated, uncapped). -/
def basicProcedures (content : String) : List String :=
  jsSetDedup ((basicLines content).filterMap (fun line =>
    let lowerLine := jsToLower line
    if jsIncludesL lowerLine "step".data || jsIncludesL lowerLine "procedure".data ||
        jsIncludesL lowerLine "remove".data || jsIncludesL lowerLine "install".data ||
        jsIncludesL lowerLine "replace".data then
      some (jsTrim line).asString
    else none))

/-- Warnings category of the basic extractor (deduplicated, uncapped). -/
def basicWarnings (content : String) : List String :=
  jsSetDedup ((basicLines content).filterMap (fun line =>
    let lowerLine := jsToLower line
    if jsIncludesL lowerLine "warning".data || jsIncludesL lowerLine "caution".data ||
        jsIncludesL lowerLine "danger".data || jsIncludesL lowerLine "hazard".data then
      some (jsTrim line).asString
    else none))

/-- The basic `extractMaintenanceInfo`: `new Set` deduplication, no caps. -/
def extractMaintenanceInfo (content : String) : MaintenanceInfo :=
  ⟨basicParts content, basicProcedures content, basicWarnings content⟩

/-- Sentence fragments of the enhanced extractor: `content.split(/[.!?\n]/)`. -/
def enhancedLines (content : String) : List (List Char) :=
  jsSplitP (fun c => c = '.' || c = '!' || c = '?' || c = '\n') content.data

/-- Parts category of the enhanced extractor before its cap. -/
def enhancedPartsRaw (content : String) : List String :=
  jsSetDedup ((enhancedLines content).filterMap (fun line =>
    let l := jsToLower line
    if jsIncludesL l "part #".data || jsIncludesL l "ref:".data ||
        jsIncludesL l "p/n".data then
      (firstRun enhancedPartClass 4 line).map List.asString
    else none))

/-- Procedures category of the enhanced extractor before its cap. -/
def enhancedProceduresRaw (content : String) : List String :=
  jsSetDedup ((enhancedLines content).filterMap (fun line =>
    let l := jsToLower line
    if jsIncludesL l "replace".data || jsIncludesL l "calibrate".data ||
        jsIncludesL l "unscrew".data || jsIncludesL l "check voltage".data ||
        jsIncludesL l "solder".data || jsIncludesL l "remove".data then
      some (jsTrim line).asString
    else none))

/-- Warnings category of the enhanced extractor before its cap. -/
def enhancedWarningsRaw (content : String) : List String :=
  jsSetDedup ((enhancedLines content).filterMap (fun line =>
    let l := jsToLower line
    if jsIncludesL l "warning".data || jsIncludesL l "caution".data ||
        jsIncludesL l "danger".data || jsIncludesL l "high voltage".data ||
        jsIncludesL l "hazard".data then
      some (jsTrim line).asString
    else none))

/-- The enhanced `extractMaintenanceInfo`: deduplication and `.slice` caps. -/
def extractMaintenanceInfoEnhanced (content : String) : MaintenanceInfo :=
  ⟨(enhancedPartsRaw content).take 10,
   (enhancedProceduresRaw content).take 15,
   (enhancedWarningsRaw content).take 5⟩

/-- Input with eleven distinct part codes on eleven lines. -/
def elevenPartsInput : String :=
  "part A01\npart A02\npart A03\npart A04\npart A05\npart A06\npart A07\npart A08\npart A09\npart A10\npart A11"

/-- C6 counterexample: the basic `extractMaintenanceInfo` applies no caps —
on input with eleven distinct part codes its parts list has 11 entries,
exceeding the claimed cap of 10. -/
theorem basic_extract_exceeds_parts_cap :
    (extractMaintenanceInfo elevenPartsInput).parts.length = 11 ∧
    ¬ (extractMaintenanceInfo elevenPartsInput).parts.length ≤ 10 := by
  decide

/-- C6 amended: the enhanced `extractMaintenanceInfo` obeys the caps
(parts ≤ 10, procedures ≤ 15, warnings ≤ 5) and contains no duplicates within
a category; the basic version deduplicates within each category but applies
no caps. -/
theorem extract_caps_and_nodup (content : String) :
    (extractMaintenanceInfoEnhanced content).parts.length ≤ 10 ∧
    (extractMaintenanceInfoEnhanced content).procedures.length ≤ 15 ∧
    (extractMaintenanceInfoEnhanced content).warnings.length ≤ 5 ∧
    (extractMaintenanceInfoEnhanced content).parts.Nodup ∧
    (extractMaintenanceInfoEnhanced content).procedures.Nodup ∧
    (extractMaintenanceInfoEnhanced content).warnings.Nodup ∧
    (extractMaintenanceInfo content).parts.Nodup ∧
    (extractMaintenanceInfo content).procedures.Nodup ∧
    (extractMaintenanceInfo content).warnings.Nodup := by
  refine ⟨List.length_take_le _ _, List.length_take_le _ _, List.length_take_le _ _,
    ?_, ?_, ?_, jsSetDedup_nodup _, jsSetDedup_nodup _, jsSetDedup_nodup _⟩
  · exact (jsSetDedup_nodup _).sublist (List.take_sublist _ _)
  · exact (jsSetDedup_nodup _).sublist (List.take_sublist _ _)
  · exact (jsSetDedup_nodup _).sublist (List.take_sublist _ _)

/-! ## Synthesizer (`analyzeFault` response handling)

Source, first version (after `invokeLLM` returns):
```js
const content = response.choices[0]?.message.content;
if (!content) throw new Error("No response from LLM");
const analysisResult = JSON.parse(contentStr);
return { rootCause: analysisResult.rootCause, ..., difficulty: analysisResult.difficulty, ... };
```
No post-parse validation is performed; the surrounding catch re-wraps any
thrown error as `Fault analysis failed: …`.  The enhanced version spreads the
parsed object (`{...result, relatedFaults: []}`) with the same absence of
validation and catch-wraps as `Engineering Analysis Failed`.
-/

/-- JSON values, the result of a successful `JSON.parse`. -/
inductive Json where
  | null
  | bool (b : Bool)
  | num (n : Int)
  | str (s : String)
  | arr (elems : List Json)
  | obj (fields : List (String × Json))

/-- JavaScript property access `o.k`: `undefined` (`none`) when the key is
absent or the value is not an object. -/
def Json.getField : Json → String → Option Json
  | .obj fields, k => fields.lookup k
  | _, _ => none

/-- Membership of a `difficulty` value in the schema's enum
`{easy, medium, hard, expert}`. -/
def isValidDifficulty : Option Json → Bool
  | some (.str s) => s == "easy" || s == "medium" || s == "hard" || s == "expert"
  | _ => false

/-- The generative-text service's content, modelled at the parse-outcome
level: absent (or empty, which is falsy), a string `JSON.parse` rejects
(with the engine's message), or a string parsing to a `Json` payload. -/
inductive LLMContent where
  | missing
  | unparsable (msg : String)
  | parsed (payload : Json)

/-- A related fault paired with the fixed `0.8` similarity indicator. -/
structure RelatedFault where
  id : Nat
  description : String
  similarity : ℚ
deriving DecidableEq

/-- The object literal the first `analyzeFault` returns: each field is
whatever property access on the parsed payload yields (`none` models
`undefined`). -/
structure JsAnalysisResult where
  rootCause : Option Json
  solution : Option Json
  partsRequired : Option Json
  estimatedRepairTime : Option Json
  difficulty : Option Json
  references : Option Json
  relatedFaults : List RelatedFault

/-- Response handling of the first `analyzeFault`: fail when content is
absent or unparsable, otherwise return the payload's fields unvalidated. -/
def analyzeFaultOutcome (content : LLMContent) (similarFaults : List (Nat × String)) :
    Except String JsAnalysisResult :=
  match content with
  | .missing => .error "Fault analysis failed: No response from LLM"
  | .unparsable msg => .error ("Fault analysis failed: " ++ msg)
  | .parsed j =>
      .ok { rootCause := j.getField "rootCause",
            solution := j.getField "solution",
            partsRequired := j.getField "partsRequired",
            estimatedRepairTime := j.getField "estimatedRepairTime",
            difficulty := j.getField "difficulty",
            references := j.getField "references",
            relatedFaults := similarFaults.map (fun f => ⟨f.1, f.2, 0.8⟩) }

/-- Response handling of the enhanced `analyzeFault`: `JSON.parse` the content
directly, spread the parsed object, attach `relatedFaults: []`. -/
def analyzeFaultOutcomeEnhanced (content : LLMContent) : Except String JsAnalysisResult :=
  match content with
  | .missing => .error "Engineering Analysis Failed"
  | .unparsable _ => .error "Engineering Analysis Failed"
  | .parsed j =>
      .ok { rootCause := j.getField "rootCause",
            solution := j.getField "solution",
            partsRequired := j.getField "partsRequired",
            estimatedRepairTime := j.getField "estimatedRepairTime",
            difficulty := j.getField "difficulty",
            references := j.getField "references",
            relatedFaults := [] }

/-- A payload carrying every schema field except `difficulty`. -/
def payloadNoDifficulty : Json :=
  .obj [("rootCause", .str "Faulty pressure sensor"),
        ("solution", .str "Replace sensor P-445"),
        ("partsRequired", .arr [.str "P-445"]),
        ("estimatedRepairTime", .str "1 hour"),
        ("references", .arr [])]

/-- A payload whose `difficulty` value lies outside the enum. -/
def payloadBadDifficulty : Json :=
  .obj [("rootCause", .str "Worn belt"),
        ("solution", .str "Replace belt"),
        ("partsRequired", .arr []),
        ("estimatedRepairTime", .str "2 hours"),
        ("difficulty", .str "impossible"),
        ("references", .arr [])]

/-- C2 counterexample: a response whose payload is missing `difficulty` (or
carries an out-of-enum value) does not make `analyzeFault` fail — both
versions return a result, the `difficulty` field passed through unvalidated
(`undefined` when absent). -/
theorem analyzeFault_accepts_invalid_difficulty :
    analyzeFaultOutcome (.parsed payloadNoDifficulty) [] =
      .ok ⟨some (.str "Faulty pressure sensor"), some (.str "Replace sensor P-445"),
           some (.arr [.str "P-445"]), some (.str "1 hour"), none, some (.arr []), []⟩ ∧
    analyzeFaultOutcomeEnhanced (.parsed payloadBadDifficulty) =
      .ok ⟨some (.str "Worn belt"), some (.str "Replace belt"), some (.arr []),
           some (.str "2 hours"), some (.str "impossible"), some (.arr []), []⟩ ∧
    isValidDifficulty (some (.str "impossible")) = false := by
  refine ⟨rfl, rfl, rfl⟩

/-- C2 amended: `analyzeFault` fails only when the response content is absent
or `JSON.parse` rejects it; a successfully parsed payload is returned with no
post-parse validation — the returned `difficulty` is exactly the payload's
`difficulty` field (absent stays `undefined`, out-of-enum values pass through
verbatim), never defaulted or coerced.  Enum enforcement lives solely in the
request's `json_schema` sent to the generative service. -/
theorem analyzeFault_difficulty_passthrough (j : Json) (sf : List (Nat × String)) :
    (∃ r, analyzeFaultOutcome (.parsed j) sf = .ok r ∧
       r.difficulty = j.getField "difficulty") ∧
    (∃ r, analyzeFaultOutcomeEnhanced (.parsed j) = .ok r ∧
       r.difficulty = j.getField "difficulty") ∧
    (∀ msg, ∃ e, analyzeFaultOutcome (.unparsable msg) sf = .error e) ∧
    (∃ e, analyzeFaultOutcome .missing sf = .error e) := by
  exact ⟨⟨_, rfl, rfl⟩, ⟨_, rfl, rfl⟩, fun msg => ⟨_, rfl⟩, ⟨_, rfl⟩⟩

/-! ## Context Assembler (document context)

Source, first version (`getDocumentContext`):
```js
const docs = await db.select().from(documents).where(eq(documents.userId, userId));
const relevantDocs = docs.filter((d) => documentIds.includes(d.id));
return relevantDocs.map((d) => `[Document: ${d.fileName}]\n${d.extractedText?.substring(0, 2000) || ""}`).join("\n\n");
```
Enhanced version (inlined in the enhanced `analyzeFault`):
```js
const docs = await db.select().from(documents);            // no userId filter
const relevantDocs = docs.filter(d => request.uploadedDocumentIds.includes(d.id));
documentContext = relevantDocs.map(d => `[Source: ${d.fileName}]\n${d.extractedText?.substring(0, 5000)}`).join("\n\n");
```
-/

/-- A row of the `documents` table (the columns the context assembler reads). -/
structure DocumentRow where
  id : Nat
  userId : Nat
  fileName : String
  extractedText : Option String
deriving DecidableEq

/-- `s.substring(0, n)` — the first `n` characters of `s`. -/
def jsSubstringTo (n : Nat) (s : String) : String :=
  (s.data.take n).asString

/-- `getDocumentContext` of the first `analyzeFault` version: the `where`
clause restricts the selection to the caller's own documents before the
requested ids are applied. -/
def getDocumentContext (docs : List DocumentRow) (documentIds : List Nat)
    (userId : Nat) : String :=
  if documentIds.length = 0 then "" else
    let userDocs := docs.filter (fun d => d.userId = userId)
    let relevantDocs := userDocs.filter (fun d => documentIds.contains d.id)
    jsJoin "\n\n" (relevantDocs.map (fun d =>
      "[Document: " ++ d.fileName ++ "]\n" ++
        ((d.extractedText.map (jsSubstringTo 2000)).getD "")))

/-- Document-context assembly inlined in the enhanced `analyzeFault`: selects
all documents with no `userId` filter; a null `extractedText` renders as the
literal string "undefined" in the template literal. -/
def documentContextEnhanced (docs : List DocumentRow)
    (uploadedDocumentIds : List Nat) : String :=
  if 0 < uploadedDocumentIds.length then
    let relevantDocs := docs.filter (fun d => uploadedDocumentIds.contains d.id)
    jsJoin "\n\n" (relevantDocs.map (fun d =>
      "[Source: " ++ d.fileName ++ "]\n" ++
        ((d.extractedText.map (jsSubstringTo 5000)).getD "undefined")))
  else ""

/-- A store holding a single document owned by user 2. -/
def secretDocs : List DocumentRow :=
  [⟨1, 2, "secret.pdf", some "TOPSECRET"⟩]

/-- C9 counterexample: the enhanced `analyzeFault` builds its document context
with no owner filter — for caller 1, whose own document set is empty, the
presence of user 2's document (id 1, requested via `uploadedDocumentIds`)
changes the assembled context and leaks that document's text. -/
theorem enhanced_context_reads_other_users_documents :
    secretDocs.filter (fun d => d.userId = 1) =
      ([] : List DocumentRow).filter (fun d => d.userId = 1) ∧
    documentContextEnhanced secretDocs [1] = "[Source: secret.pdf]\nTOPSECRET" ∧
    ¬ documentContextEnhanced secretDocs [1] = documentContextEnhanced [] [1] := by
  refine ⟨rfl, rfl, ?_⟩
  decide

/-- C9 amended: the first implementation, `getDocumentContext`, is scoped to
the caller — its output depends only on the caller's own document rows, so a
document owned by a different user never contributes text and changing other
users' documents cannot change the caller's assembled context.  The enhanced
`analyzeFault` version selects all documents without a `userId` filter and
does leak (see the counterexample). -/
theorem getDocumentContext_scoped (docs1 docs2 : List DocumentRow)
    (ids : List Nat) (uid : Nat)
    (h : docs1.filter (fun d => d.userId = uid) = docs2.filter (fun d => d.userId = uid)) :
    getDocumentContext docs1 ids uid = getDocumentContext docs2 ids uid := by
  unfold getDocumentContext
  rw [h]

/-- Witness for `getDocumentContext_scoped`: the stores `secretDocs` and `[]`
agree on caller 1's documents, and caller 1's assembled context is identical
over them even when user 2's document id is requested. -/
theorem getDocumentContext_scoped_witness :
    (secretDocs.filter (fun d => d.userId = 1) =
      ([] : List DocumentRow).filter (fun d => d.userId = 1)) ∧
    getDocumentContext secretDocs [1] 1 = getDocumentContext [] [1] 1 :=
  ⟨rfl, getDocumentContext_scoped secretDocs [] [1] 1 rfl⟩

/-! ## Fault rating (`faultsRouter.rateFault`)

Source:
```js
const fault = faultResult[0];
const updateData = input.helpful
  ? { helpful: (fault.helpful || 0) + 1 }
  : { notHelpful: (fault.notHelpful || 0) + 1 };
await db.update(faults).set(updateData).where(eq(faults.id, input.faultId));
```
The `set` carries exactly one column, so only that counter changes.  (The
DB-managed `updatedAt` timestamp column, refreshed by MySQL `ON UPDATE now()`
on any row update, is wall-clock behaviour outside this model.)
-/

/-- A row of the `faults` table (columns the router reads and returns). -/
structure FaultRow where
  id : Nat
  userId : Option Nat
  deviceType : String
  manufacturer : String
  deviceModel : String
  faultDescription : String
  symptoms : Option String
  errorCodes : Option String
  rootCause : Option String
  solution : Option String
  partsRequired : Option String
  estimatedRepairTime : Option String
  difficulty : String
  views : Int
  helpful : Int
  notHelpful : Int
deriving DecidableEq

/-- JavaScript `n || 0` on a non-null numeric column. -/
def jsOrZero (n : Int) : Int := if n = 0 then 0 else n

theorem jsOrZero_eq (n : Int) : jsOrZero n = n := by
  unfold jsOrZero
  split <;> omega

/-- The single-column `set` applied to a row `r`, where the new counter value
is computed from the previously fetched row `f`. -/
def rateUpdate (helpfulFlag : Bool) (f r : FaultRow) : FaultRow :=
  if helpfulFlag then { r with helpful := jsOrZero f.helpful + 1 }
  else { r with notHelpful := jsOrZero f.notHelpful + 1 }

/-- `faultsRouter.rateFault`: fetch the fault (`limit(1)`), report failure
when it does not exist, otherwise update the single rated counter on the rows
matching the id. -/
def rateFault (rows : List FaultRow) (faultId : Nat) (helpfulFlag : Bool) :
    Except String (List FaultRow) :=
  match rows.find? (fun r => r.id = faultId) with
  | none => .error "Failed to rate fault"
  | some f =>
      .ok (rows.map (fun r => if r.id = faultId then rateUpdate helpfulFlag f r else r))

/-- `rateUpdate` of a row against itself — the effect of the update on the
unique row carrying the rated id. -/
def bumpRating (helpfulFlag : Bool) (r : FaultRow) : FaultRow :=
  rateUpdate helpfulFlag r r

/-- C10: for an existing fault record — fault ids are unique, being the
table's primary key — `rateFault` with `helpful=true` replaces exactly the
rated record by a copy whose `helpful` counter grew by exactly 1, every other
column (`notHelpful`, `views`, and all the rest) and every other row
unchanged; with `helpful=false` symmetrically for `notHelpful`. -/
theorem rateFault_frame (rows : List FaultRow) (fid : Nat) (b : Bool) (f : FaultRow)
    (hnd : (rows.map (fun r => r.id)).Nodup)
    (hf : rows.find? (fun r => r.id = fid) = some f) :
    rateFault rows fid b =
      .ok (rows.map (fun r => if r.id = fid then bumpRating b r else r)) ∧
    (∀ r : FaultRow,
      (bumpRating b r).id = r.id ∧
      (bumpRating b r).views = r.views ∧
      (bumpRating b r).userId = r.userId ∧
      (bumpRating b r).deviceType = r.deviceType ∧
      (bumpRating b r).manufacturer = r.manufacturer ∧
      (bumpRating b r).deviceModel = r.deviceModel ∧
      (bumpRating b r).faultDescription = r.faultDescription ∧
      (bumpRating b r).symptoms = r.symptoms ∧
      (bumpRating b r).errorCodes = r.errorCodes ∧
      (bumpRating b r).rootCause = r.rootCause ∧
      (bumpRating b r).solution = r.solution ∧
      (bumpRating b r).partsRequired = r.partsRequired ∧
      (bumpRating b r).estimatedRepairTime = r.estimatedRepairTime ∧
      (bumpRating b r).difficulty = r.difficulty) ∧
    (b = true → ∀ r : FaultRow,
      (bumpRating b r).helpful = r.helpful + 1 ∧
      (bumpRating b r).notHelpful = r.notHelpful) ∧
    (b = false → ∀ r : FaultRow,
      (bumpRating b r).notHelpful = r.notHelpful + 1 ∧
      (bumpRating b r).helpful = r.helpful) := by
  have hfid : f.id = fid := by
    have := List.find?_some hf
    exact of_decide_eq_true this
  have hfmem : f ∈ rows := List.mem_of_find?_eq_some hf
  refine ⟨?_, ?_, ?_, ?_⟩
  · unfold rateFault
    rw [hf]
    dsimp only
    congr 1
    apply List.map_congr_left
    intro r hr
    by_cases hid : r.id = fid
    · have hrf : r = f := by
        have := List.inj_on_of_nodup_map hnd hr hfmem
        exact this (by rw [hid, hfid])
      simp only [hid, if_true, hrf]
      rfl
    · simp [hid]
  · intro r
    unfold bumpRating rateUpdate
    cases b <;> simp
  · rintro rfl r
    unfold bumpRating rateUpdate
    simp [jsOrZero_eq]
  · rintro rfl r
    unfold bumpRating rateUpdate
    simp [jsOrZero_eq]

/-- A concrete fault record used as witness input. -/
def fault7 : FaultRow :=
  ⟨7, none, "Ventilator", "Acme", "V200", "Alarm E04 on startup", none, none,
   some "Faulty pressure sensor", some "Replace sensor P-445", some "P-445",
   some "1 hour", "medium", 3, 1, 0⟩

/-- A one-row `faults` table containing `fault7`. -/
def faultsTable7 : List FaultRow := [fault7]

/-- Witness for `rateFault_frame` at the concrete table `faultsTable7`. -/
theorem rateFault_frame_witness :
    (faultsTable7.map (fun r => r.id)).Nodup ∧
    faultsTable7.find? (fun r => r.id = 7) = some fault7 ∧
    (rateFault faultsTable7 7 true =
      .ok (faultsTable7.map (fun r => if r.id = 7 then bumpRating true r else r)) ∧
    (∀ r : FaultRow,
      (bumpRating true r).id = r.id ∧
      (bumpRating true r).views = r.views ∧
      (bumpRating true r).userId = r.userId ∧
      (bumpRating true r).deviceType = r.deviceType ∧
      (bumpRating true r).manufacturer = r.manufacturer ∧
      (bumpRating true r).deviceModel = r.deviceModel ∧
      (bumpRating true r).faultDescription = r.faultDescription ∧
      (bumpRating true r).symptoms = r.symptoms ∧
      (bumpRating true r).errorCodes = r.errorCodes ∧
      (bumpRating true r).rootCause = r.rootCause ∧
      (bumpRating true r).solution = r.solution ∧
      (bumpRating true r).partsRequired = r.partsRequired ∧
      (bumpRating true r).estimatedRepairTime = r.estimatedRepairTime ∧
      (bumpRating true r).difficulty = r.difficulty) ∧
    (true = true → ∀ r : FaultRow,
      (bumpRating true r).helpful = r.helpful + 1 ∧
      (bumpRating true r).notHelpful = r.notHelpful) ∧
    (true = false → ∀ r : FaultRow,
      (bumpRating true r).notHelpful = r.notHelpful + 1 ∧
      (bumpRating true r).helpful = r.helpful)) :=
  ⟨by decide, by decide, rateFault_frame faultsTable7 7 true fault7 (by decide) (by decide)⟩

/-! ## Quota Gate and the analyze mutation (`faultsRouter.analyze`)

Source order: read the caller's `users` row; throw
`"Query quota exceeded. Please upgrade your subscription."` when absent or
`queriesRemaining <= 0`; call `analyzeFault` (the generative step); optionally
`saveFaultAnalysis`; `logQuery`; update the user row with
`queriesRemaining: Math.max(0, user[0].queriesRemaining - 1)` and
`totalQueriesUsed: user[0].totalQueriesUsed + 1` — both computed from the
admission-time read.  The surrounding catch re-wraps any thrown error as
`"Analysis failed: …"`.
-/

/-- A row of the `users` table (columns the analyze mutation touches). -/
structure UserRow where
  id : Nat
  queriesRemaining : Int
  totalQueriesUsed : Int
deriving DecidableEq

/-- A row of the `queryHistory` table (columns `logQuery` writes). -/
structure QueryRow where
  userId : Nat
  query : String
  deviceType : String
  manufacturer : String
  deviceModel : String
  relatedFaultIds : String
  searchPerformed : Bool
  queryCost : Int
deriving DecidableEq

/-- The validated input of the analyze mutation. -/
structure AnalyzeInput where
  deviceType : String
  manufacturer : String
  deviceModel : String
  faultDescription : String
  symptoms : Option String
  errorCodes : Option String
  uploadedDocumentIds : List Nat
  saveToKnowledgeBase : Bool
deriving DecidableEq

/-- The analysis consumed by the save/log steps of the router. -/
structure AnalysisResp where
  rootCause : String
  solution : String
  partsRequired : List String
  estimatedRepairTime : String
  difficulty : String
  relatedFaultIds : List Nat
deriving DecidableEq

/-- The persisted store touched by the analyze mutation. -/
structure AppDb where
  users : List UserRow
  faults : List FaultRow
  queryHistory : List QueryRow
deriving DecidableEq

/-- Externally visible side effects of the analyze mutation, in order. -/
inductive Event where
  | llmCall
  | insertFault
  | insertQueryHistory
  | updateUserQuota
deriving DecidableEq

/-- Fresh auto-increment id for a `faults` insert. -/
def nextFaultId (db : AppDb) : Nat :=
  (db.faults.map (fun r => r.id)).foldr max 0 + 1

/-- `saveFaultAnalysis`: always inserts a new fault row built from the
request and the analysis; `partsRequired` is stored joined with `", "`. -/
def saveFaultAnalysisDb (db : AppDb) (input : AnalyzeInput) (analysis : AnalysisResp)
    (userId : Nat) : Nat × AppDb :=
  let fid := nextFaultId db
  (fid, { db with faults := db.faults ++
    [⟨fid, some userId, input.deviceType, input.manufacturer, input.deviceModel,
      input.faultDescription, input.symptoms, input.errorCodes,
      some analysis.rootCause, some analysis.solution,
      some (savePartsRequired analysis.partsRequired),
      some analysis.estimatedRepairTime, analysis.difficulty, 0, 0, 0⟩] })

/-- `logQuery`: appends exactly one `queryHistory` row for the request. -/
def logQueryDb (db : AppDb) (userId : Nat) (input : AnalyzeInput)
    (relatedFaultIds : List Nat) (searchPerformed : Bool) : AppDb :=
  { db with queryHistory := db.queryHistory ++
      [⟨userId, input.faultDescription, input.deviceType, input.manufacturer,
        input.deviceModel, jsJoin "," (relatedFaultIds.map toString),
        searchPerformed, 1⟩] }

/-- The `faultsRouter.analyze` mutation.  The generative step is abstracted by
`llm` — the outcome `analyzeFault` would produce for this request; all other
behaviour follows the router line by line.  Returns the tRPC result (fault id
option, analysis, reported remaining balance), the new store, and the ordered
external side effects. -/
def analyzeMutation (db : AppDb) (callerId : Nat) (input : AnalyzeInput)
    (llm : Except String AnalysisResp) :
    Except String (Option Nat × AnalysisResp × Int) × AppDb × List Event :=
  match db.users.find? (fun u => u.id = callerId) with
  | none =>
      (.error "Analysis failed: Query quota exceeded. Please upgrade your subscription.",
       db, [])
  | some u =>
      if u.queriesRemaining ≤ 0 then
        (.error "Analysis failed: Query quota exceeded. Please upgrade your subscription.",
         db, [])
      else
        match llm with
        | .error e => (.error ("Analysis failed: " ++ e), db, [.llmCall])
        | .ok analysis =>
            let saved :=
              if input.saveToKnowledgeBase then
                let r := saveFaultAnalysisDb db input analysis callerId
                (some r.1, r.2)
              else (none, db)
            let db2 := logQueryDb saved.2 callerId input analysis.relatedFaultIds false
            let db3 := { db2 with users := db2.users.map (fun v =>
              if v.id = callerId then
                { v with queriesRemaining := max 0 (u.queriesRemaining - 1),
                         totalQueriesUsed := u.totalQueriesUsed + 1 }
              else v) }
            (.ok (saved.1, analysis, max 0 (u.queriesRemaining - 1)), db3,
              [Event.llmCall] ++
                (if input.saveToKnowledgeBase then [Event.insertFault] else []) ++
                [Event.insertQueryHistory, Event.updateUserQuota])

/-- C4: a request by a caller whose stored balance is ≤ 0 fails with the
quota-exceeded error before any external call is issued (the side-effect
trace is empty, so in particular no generative-service call happens) and
leaves the store — fault rows, query history, balances and counters —
exactly as it was. -/
theorem quota_gate_no_side_effects (db : AppDb) (callerId : Nat)
    (input : AnalyzeInput) (llm : Except String AnalysisResp) (u : UserRow)
    (hu : db.users.find? (fun v => v.id = callerId) = some u)
    (hq : u.queriesRemaining ≤ 0) :
    analyzeMutation db callerId input llm =
      (.error "Analysis failed: Query quota exceeded. Please upgrade your subscription.",
       db, []) := by
  unfold analyzeMutation
  rw [hu]
  dsimp only
  rw [if_pos hq]

/-- The store used by the quota-gate witness: one caller with balance 0. -/
def dbQuotaOut : AppDb := ⟨[⟨1, 0, 5⟩], [], []⟩

/-- A concrete analyze input. -/
def inputVentilator : AnalyzeInput :=
  ⟨"Ventilator", "Acme", "V200", "Alarm E04 on startup, fails to initialize",
   none, none, [], true⟩

/-- A concrete successful analysis outcome. -/
def respVentilator : AnalysisResp :=
  ⟨"Faulty pressure sensor", "Replace sensor P-445", ["P-445"], "1 hour",
   "medium", []⟩

/-- Witness for `quota_gate_no_side_effects`: even with a generative step
that would succeed, the caller with balance 0 is rejected with no effects. -/
theorem quota_gate_no_side_effects_witness :
    dbQuotaOut.users.find? (fun v => v.id = 1) = some ⟨1, 0, 5⟩ ∧
    (⟨1, 0, 5⟩ : UserRow).queriesRemaining ≤ 0 ∧
    analyzeMutation dbQuotaOut 1 inputVentilator (.ok respVentilator) =
      (.error "Analysis failed: Query quota exceeded. Please upgrade your subscription.",
       dbQuotaOut, []) :=
  ⟨by decide, by decide,
   quota_gate_no_side_effects dbQuotaOut 1 inputVentilator (.ok respVentilator)
     ⟨1, 0, 5⟩ (by decide) (by decide)⟩

/-! ## Quota race: two concurrent analyze requests from one caller

Each admitted request contributes two balance-relevant steps: the admission
read (which captures `user[0]`) and the settle write
(`queriesRemaining: Math.max(0, user[0].queriesRemaining - 1)`,
`totalQueriesUsed: user[0].totalQueriesUsed + 1` — both computed from the
captured read, not from the current row).  The generative/insert steps in
between do not touch the balance.  Interleavings of the two requests are
modelled as schedules over this two-step-per-request transition system.
-/

/-- Phase of one request: not yet at the quota check, admitted (carrying the
captured read of the user row), rejected by the quota gate, or finished
successfully. -/
inductive ReqPhase where
  | started
  | admitted (balRead : Int) (totalRead : Int)
  | rejected
  | finished
deriving DecidableEq

/-- The caller's stored balance and counter plus both requests' phases. -/
structure QuotaRace where
  balance : Int
  totalUsed : Int
  req1 : ReqPhase
  req2 : ReqPhase
deriving DecidableEq

/-- One step of a single request against the stored row. -/
def reqStep (balance totalUsed : Int) : ReqPhase → Int × Int × ReqPhase
  | .started =>
      if balance ≤ 0 then (balance, totalUsed, .rejected)
      else (balance, totalUsed, .admitted balance totalUsed)
  | .admitted balRead totalRead =>
      (max 0 (balRead - 1), totalRead + 1, .finished)
  | p => (balance, totalUsed, p)

/-- Advance the scheduled request (`false` = request 1, `true` = request 2). -/
def raceStep (s : QuotaRace) (tid : Bool) : QuotaRace :=
  if tid then
    let r := reqStep s.balance s.totalUsed s.req2
    ⟨r.1, r.2.1, s.req1, r.2.2⟩
  else
    let r := reqStep s.balance s.totalUsed s.req1
    ⟨r.1, r.2.1, r.2.2, s.req2⟩

/-- Run a schedule — a list of request ids — from a state. -/
def runRace (sched : List Bool) (s : QuotaRace) : QuotaRace :=
  sched.foldl raceStep s

/-- Balance 1, neither request started. -/
def raceInit : QuotaRace := ⟨1, 0, .started, .started⟩

theorem reqStep_balance_nonneg (balance totalUsed : Int) (p : ReqPhase)
    (h : 0 ≤ balance) : 0 ≤ (reqStep balance totalUsed p).1 := by
  cases p with
  | started =>
      by_cases hb : balance ≤ 0
      · simp [reqStep, hb, h]
      · simp [reqStep, hb, h]
  | admitted b t => simp [reqStep]
  | rejected => simpa [reqStep]
  | finished => simpa [reqStep]

theorem raceStep_balance_nonneg (s : QuotaRace) (tid : Bool)
    (h : 0 ≤ s.balance) : 0 ≤ (raceStep s tid).balance := by
  unfold raceStep
  cases tid <;> dsimp only <;> exact reqStep_balance_nonneg _ _ _ h

theorem runRace_balance_nonneg (sched : List Bool) :
    ∀ s : QuotaRace, 0 ≤ s.balance → 0 ≤ (runRace sched s).balance := by
  induction sched with
  | nil => intro s h; simpa [runRace]
  | cons tid rest ih =>
      intro s h
      exact ih (raceStep s tid) (raceStep_balance_nonneg s tid h)

/-- C1 (divergence evaluated): starting from balance 1, the interleaving that
admits both requests before either settles (read₁, read₂, settle₁, settle₂)
lets BOTH requests finish successfully — the settle is a blind write of the
admission-time read, not a compare-and-decrement, so it is not atomic
relative to the balance read.  The stored balance still ends at 0 and, thanks
to the `Math.max(0, …)` clamp, stays non-negative under every schedule (never
−1); `totalQueriesUsed` ends at 1, recording only one of the two completed
requests (a lost update). -/
theorem quota_race_both_succeed :
    runRace [false, true, false, true] raceInit =
      ⟨0, 1, .finished, .finished⟩ ∧
    (∀ sched : List Bool, 0 ≤ (runRace sched raceInit).balance) := by
  exact ⟨by decide, fun sched => runRace_balance_nonneg sched raceInit (by decide)⟩

/-! ## Search Orchestrator (`searchAllSources`)

Source: load the `isActive` sources; for each, `searchSource` (which calls
`scrapeUrl`; every per-source failure — timeout, non-2xx, parse exception —
is caught inside `scrapeUrl`/`searchSource`, which return `null`/`[]`), push
its results, push the source's name onto `sourcesSearched`, update
`lastScraped`, sleep 1 s; afterwards sort by descending `relevanceScore` and
keep the top 20.  The network fetch-and-parse pipeline is abstracted by the
`fetch` parameter: `some page` when the source's search page scrapes
successfully, `none` when it fails.  (`lastScraped` and the result timestamp
are wall-clock columns outside this model.)
-/

/-- A row of the `searchSources` table (columns the orchestrator reads). -/
structure SearchSource where
  id : Nat
  name : String
  url : String
  isActive : Bool
deriving DecidableEq

/-- A scraped page, as produced by `scrapeUrl`. -/
structure ScrapedContent where
  title : String
  url : String
  content : String
  relevanceScore : ℚ
deriving DecidableEq

/-- The orchestrator's return value (minus its wall-clock timestamp). -/
structure WebSearchResult where
  query : String
  results : List ScrapedContent
  sourcesSearched : List String
deriving DecidableEq

/-- `searchSource` for one source: one scraped page on success, `[]` on
failure (its catch blocks never let a per-source error escape). -/
def searchSourceResults (fetch : SearchSource → Option ScrapedContent)
    (src : SearchSource) : List ScrapedContent :=
  (fetch src).toList

/-- The sequential per-source loop of `searchAllSources`: accumulate results
and record every attempted source's name, regardless of success. -/
def searchLoop (fetch : SearchSource → Option ScrapedContent) :
    List SearchSource → List ScrapedContent × List String
  | [] => ([], [])
  | src :: rest =>
      let r := searchLoop fetch rest
      (searchSourceResults fetch src ++ r.1, src.name :: r.2)

/-- Descending insertion by relevance score, modelling
`results.sort((a, b) => b.relevanceScore - a.relevanceScore)`. -/
def insertByScore (x : ScrapedContent) : List ScrapedContent → List ScrapedContent
  | [] => [x]
  | y :: ys =>
      if y.relevanceScore ≤ x.relevanceScore then x :: y :: ys
      else y :: insertByScore x ys

/-- Insertion sort by descending relevance score. -/
def sortByScore : List ScrapedContent → List ScrapedContent
  | [] => []
  | x :: xs => insertByScore x (sortByScore xs)

/-- `searchAllSources`: filter the active sources, run the per-source loop,
sort by descending relevance, truncate to the top 20. -/
def searchAllSources (fetch : SearchSource → Option ScrapedContent)
    (sources : List SearchSource) (searchQuery : String) : WebSearchResult :=
  let active := sources.filter (fun s => s.isActive)
  let r := searchLoop fetch active
  ⟨searchQuery, (sortByScore r.1).take 20, r.2⟩

theorem length_insertByScore (x : ScrapedContent) (l : List ScrapedContent) :
    (insertByScore x l).length = l.length + 1 := by
  induction l with
  | nil => rfl
  | cons y ys ih =>
      unfold insertByScore
      split
      · simp
      · simp [ih]

theorem length_sortByScore (l : List ScrapedContent) :
    (sortByScore l).length = l.length := by
  induction l with
  | nil => rfl
  | cons x xs ih => simp [sortByScore, length_insertByScore, ih]

theorem searchLoop_results (fetch : SearchSource → Option ScrapedContent)
    (srcs : List SearchSource) :
    (searchLoop fetch srcs).1 = srcs.filterMap fetch := by
  induction srcs with
  | nil => rfl
  | cons src rest ih =>
      cases h : fetch src <;>
        simp [searchLoop, searchSourceResults, h, List.filterMap_cons, ih]

theorem searchLoop_names (fetch : SearchSource → Option ScrapedContent)
    (srcs : List SearchSource) :
    (searchLoop fetch srcs).2 = srcs.map (fun s => s.name) := by
  induction srcs with
  | nil => rfl
  | cons src rest ih => simp [searchLoop, ih]

theorem length_filterMap_eq_length_filter (fetch : SearchSource → Option ScrapedContent)
    (srcs : List SearchSource) :
    (srcs.filterMap fetch).length =
      (srcs.filter (fun s => (fetch s).isSome)).length := by
  induction srcs with
  | nil => rfl
  | cons src rest ih =>
      cases h : fetch src <;> simp [List.filterMap_cons, List.filter_cons, h, ih]

/-- C5: over 3 configured active sources of which exactly 2 fetch
successfully (1 times out or otherwise fails), `searchAllSources` returns
exactly 2 ranked results and records all 3 sources as attempted: a per-source
failure never aborts the batch, contributes nothing to the results, and its
source still appears in `sourcesSearched`. -/
theorem search_batch_tolerates_source_failure
    (fetch : SearchSource → Option ScrapedContent)
    (sources : List SearchSource) (searchQuery : String)
    (hact : ∀ s ∈ sources, s.isActive = true)
    (hlen : sources.length = 3)
    (hsucc : (sources.filter (fun s => (fetch s).isSome)).length = 2) :
    (searchAllSources fetch sources searchQuery).results.length = 2 ∧
    (searchAllSources fetch sources searchQuery).sourcesSearched =
      sources.map (fun s => s.name) ∧
    (searchAllSources fetch sources searchQuery).sourcesSearched.length = 3 := by
  have hfilter : sources.filter (fun s => s.isActive) = sources :=
    List.filter_eq_self.mpr hact
  unfold searchAllSources
  rw [hfilter]
  dsimp only
  rw [searchLoop_results, searchLoop_names]
  refine ⟨?_, rfl, by simp [hlen]⟩
  rw [List.length_take, length_sortByScore, length_filterMap_eq_length_filter, hsucc]
  rfl

/-- Three concrete active sources. -/
def sourceForum : SearchSource := ⟨1, "MedForum", "https://medforum.example", true⟩

/-- Second concrete source (the one that will time out). -/
def sourceWiki : SearchSource := ⟨2, "RepairWiki", "https://repairwiki.example", true⟩

/-- Third concrete source. -/
def sourceVendor : SearchSource := ⟨3, "VendorDocs", "https://vendordocs.example", true⟩

/-- The three-source configuration of the witness. -/
def threeSources : List SearchSource := [sourceForum, sourceWiki, sourceVendor]

/-- A fetch outcome where source 2 fails and the other two succeed. -/
def fetchTwoOfThree (s : SearchSource) : Option ScrapedContent :=
  if s.id = 2 then none else some ⟨s.name, s.url, "replace the pump filter", 1⟩

/-- Witness for `search_batch_tolerates_source_failure` at the concrete
three-source configuration. -/
theorem search_batch_tolerates_source_failure_witness :
    (∀ s ∈ threeSources, s.isActive = true) ∧
    threeSources.length = 3 ∧
    (threeSources.filter (fun s => (fetchTwoOfThree s).isSome)).length = 2 ∧
    ((searchAllSources fetchTwoOfThree threeSources "pump").results.length = 2 ∧
     (searchAllSources fetchTwoOfThree threeSources "pump").sourcesSearched =
       threeSources.map (fun s => s.name) ∧
     (searchAllSources fetchTwoOfThree threeSources "pump").sourcesSearched.length = 3) :=
  ⟨by decide, by decide, by decide,
   search_batch_tolerates_source_failure fetchTwoOfThree threeSources "pump"
     (by decide) (by decide) (by decide)⟩
